import Mathlib

/-
Verification of the pure-pursuit tracking core
(src/waypoint_follower/nodes/pure_pursuit/pure_pursuit.cpp).

Doubles are modelled as real numbers.  The geometry helpers
(getPlaneDistance, getLinearEquation, getDistanceBetweenLineAndPoint,
rotateUnitVector, calcRelativeCoordinate) and the constant KAPPA_MIN_
live in libwaypoint_follower / pure_pursuit.h, which are not part of
this repository snapshot; they are modelled from the spec as noted on
each definition.  std::vector::at with an out-of-range index throws,
which is modelled as an explicit panic outcome.
-/

namespace WaypointFollower

open Classical

noncomputable section

/-- A point in the map frame, mirroring geometry_msgs::Point. -/
structure Point where
  x : ℝ
  y : ℝ
  z : ℝ

/-- Vehicle pose: a position plus a heading.  The source carries a
quaternion; the spec (§3) allows the orientation to be a yaw angle,
which is all the planar geometry uses. -/
structure Pose where
  position : Point
  yaw : ℝ

/-- Modelled from the spec: getPlaneDistance of libwaypoint_follower,
the Euclidean distance projected onto the horizontal plane (§4.1). -/
def getPlaneDistance (p q : Point) : ℝ :=
  Real.sqrt ((p.x - q.x) ^ 2 + (p.y - q.y) ^ 2)

/-- Modelled from the spec: getLinearEquation of libwaypoint_follower.
Coefficients (a, b, c) of the line a*x + b*y + c = 0 through p1 and p2,
with a = y2 - y1, b = x1 - x2, c = -a*x1 - b*y1; degenerate (none) when
the two points coincide in the plane, so no unique line exists (§4.1). -/
def getLinearEquation (p1 p2 : Point) : Option (ℝ × ℝ × ℝ) :=
  if p1.x = p2.x ∧ p1.y = p2.y then none
  else some (p2.y - p1.y, p1.x - p2.x,
    -(p2.y - p1.y) * p1.x - (p1.x - p2.x) * p1.y)

/-- Modelled from the spec: getDistanceBetweenLineAndPoint of
libwaypoint_follower, the distance |a*x + b*y + c| / sqrt(a^2 + b^2)
from a point to the line a*x + b*y + c = 0 (§4.1). -/
def getDistanceBetweenLineAndPoint (p : Point) (a b c : ℝ) : ℝ :=
  |a * p.x + b * p.y + c| / Real.sqrt (a ^ 2 + b ^ 2)

/-- Modelled from the spec: rotateUnitVector of libwaypoint_follower,
rotating a planar vector about the vertical axis by an angle given in
degrees (§4.1); used only at +90 and -90 degrees. -/
def rotateUnitVector (v : ℝ × ℝ) (degree : ℝ) : ℝ × ℝ :=
  (Real.cos (degree * Real.pi / 180) * v.1 - Real.sin (degree * Real.pi / 180) * v.2,
   Real.sin (degree * Real.pi / 180) * v.1 + Real.cos (degree * Real.pi / 180) * v.2)

/-- tf::Vector3::normalize on a planar vector: divide by the norm. -/
def normalizeVec (v : ℝ × ℝ) : ℝ × ℝ :=
  (v.1 / Real.sqrt (v.1 ^ 2 + v.2 ^ 2), v.2 / Real.sqrt (v.1 ^ 2 + v.2 ^ 2))

/-- Modelled from the spec: calcRelativeCoordinate of
libwaypoint_follower, the rigid-body transform of a map-frame point
into the frame centered at the pose with the forward axis aligned to
the pose heading (§4.1). -/
def calcRelativeCoordinate (point : Point) (pose : Pose) : Point :=
  { x := Real.cos pose.yaw * (point.x - pose.position.x) +
         Real.sin pose.yaw * (point.y - pose.position.y)
    y := -Real.sin pose.yaw * (point.x - pose.position.x) +
         Real.cos pose.yaw * (point.y - pose.position.y)
    z := point.z - pose.position.z }

/-- The fields of class PurePursuit that the four verified member
functions read or write.  kappa_min is KAPPA_MIN_, modelled from the
spec as an unspecified saturation constant (declared in pure_pursuit.h,
which is not in the snapshot). -/
structure PurePursuitState where
  current_waypoints : List Point
  current_pose : Pose
  lookahead_distance : ℝ
  minimum_lookahead_distance : ℝ
  is_linear_interpolation : Bool
  kappa_min : ℝ
  next_waypoint_number : ℤ
  next_target_position : Point

/-- PurePursuit::calcCurvature (pure_pursuit.cpp lines 30-44). -/
def calcCurvature (pp : PurePursuitState) (target : Point) : ℝ :=
  let pt := calcRelativeCoordinate target pp.current_pose
  let denominator := pt.x * pt.x
  let numerator := 2 * pt.y
  if denominator ≠ 0 then numerator / denominator
  else if numerator > 0 then pp.kappa_min else -pp.kappa_min

/-- std::vector::at with an int index: some element when the index is
in bounds, none (an out_of_range throw) otherwise. -/
def listAt (l : List Point) (i : ℤ) : Option Point :=
  if h : 0 ≤ i ∧ i < (l.length : ℤ) then
    some (l.get ⟨i.toNat, by omega⟩)
  else none

/-- Outcome of interpolateNextTarget: a target point (return true), a
structured failure (return false), or an escaping out_of_range throw. -/
inductive InterpResult where
  | ok (target : Point)
  | fail
  | panic

/-- The constexpr ERROR = pow(10, -5) of interpolateNextTarget. -/
def ERROR : ℝ := 1 / 100000

/-- A foot of the perpendicular from the vehicle position: the vehicle
position displaced by d along a unit normal w, with the z coordinate of
the pose (pure_pursuit.cpp lines 95-103). -/
def footOf (pose : Pose) (d : ℝ) (w : ℝ × ℝ) : Point :=
  ⟨pose.position.x + d * w.1, pose.position.y + d * w.2, pose.position.z⟩

/-- The two-candidate foot selection (pure_pursuit.cpp lines 110-124):
the first candidate whose residual in the line equation is below ERROR,
none when neither qualifies. -/
def selectFoot (a b c : ℝ) (h1 h2 : Point) : Option Point :=
  if |a * h1.x + b * h1.y + c| < ERROR then some h1
  else if |a * h2.x + b * h2.y + c| < ERROR then some h2
  else none

/-- The tangent / chord case split of interpolateNextTarget
(pure_pursuit.cpp lines 128-171): d equal to the search radius returns
the foot h; otherwise the two circle intersections h plus-or-minus
s * unit_v are tried in order against the segment length. -/
def interpTangentOrChord (pose : Pose) (search_radius d : ℝ) (unit_v : ℝ × ℝ)
    (h : Point) (start end_ : Point) : InterpResult :=
  if d = search_radius then .ok h
  else
    let s := Real.sqrt (search_radius ^ 2 - d ^ 2)
    let target1 : Point := ⟨h.x + s * unit_v.1, h.y + s * unit_v.2,
                            pose.position.z⟩
    let target2 : Point := ⟨h.x - s * unit_v.1, h.y - s * unit_v.2,
                            pose.position.z⟩
    let interval := getPlaneDistance end_ start
    if getPlaneDistance target1 end_ < interval then .ok target1
    else if getPlaneDistance target2 end_ < interval then .ok target2
    else .fail

/-- Stage of interpolateNextTarget after the line equation is obtained
(pure_pursuit.cpp lines 76-171): radius test on the perpendicular
distance, foot selection, then tangent or chord intersection. -/
def interpAfterLine (pose : Pose) (search_radius : ℝ) (start end_ : Point)
    (a b c : ℝ) : InterpResult :=
  let d := getDistanceBetweenLineAndPoint pose.position a b c
  if d > search_radius then .fail
  else
    let unit_v := normalizeVec (end_.x - start.x, end_.y - start.y)
    match selectFoot a b c (footOf pose d (rotateUnitVector unit_v 90))
        (footOf pose d (rotateUnitVector unit_v (-90))) with
    | none => .fail
    | some h => interpTangentOrChord pose search_radius d unit_v h start end_

/-- The body of PurePursuit::interpolateNextTarget after the bounds
accesses (pure_pursuit.cpp lines 57-171): line through start and end,
perpendicular distance, foot selection, tangent or chord intersection. -/
def interpCore (pose : Pose) (search_radius : ℝ) (start end_ : Point) : InterpResult :=
  match getLinearEquation start end_ with
  | none => .fail
  | some (a, b, c) => interpAfterLine pose search_radius start end_ a b c

/-- PurePursuit::interpolateNextTarget (pure_pursuit.cpp lines 47-172):
last-index shortcut, then the .at accesses for end and start, then the
geometric core. -/
def interpolateNextTarget (pp : PurePursuitState) (next_waypoint : ℤ) : InterpResult :=
  let path_size : ℤ := (pp.current_waypoints.length : ℤ)
  if next_waypoint = path_size - 1 then
    match listAt pp.current_waypoints next_waypoint with
    | none => .panic
    | some p => .ok p
  else
    match listAt pp.current_waypoints next_waypoint with
    | none => .panic
    | some end_ =>
      match listAt pp.current_waypoints (next_waypoint - 1) with
      | none => .panic
      | some start => interpCore pp.current_pose pp.lookahead_distance start end_

/-- The scan loop of PurePursuit::getNextWaypoint (pure_pursuit.cpp
lines 186-202), iterating i over the path: at the last index select i,
else select i when the plane distance exceeds the lookahead distance,
else continue; -1 when the scan exhausts. -/
def nextWaypointFrom (pose : Pose) (ld : ℝ) (path_size : ℕ) : ℕ → List Point → ℤ
  | _, [] => -1
  | i, p :: rest =>
    if i = path_size - 1 then (i : ℤ)
    else if getPlaneDistance p pose.position > ld then (i : ℤ)
    else nextWaypointFrom pose ld path_size (i + 1) rest

/-- PurePursuit::getNextWaypoint (pure_pursuit.cpp lines 174-207) as a
function of the state, returning the value stored into
next_waypoint_number_. -/
def getNextWaypoint (pp : PurePursuitState) : ℤ :=
  if pp.current_waypoints.length = 0 then -1
  else nextWaypointFrom pp.current_pose pp.lookahead_distance
    pp.current_waypoints.length 0 pp.current_waypoints

/-- The validity scan of PurePursuit::canGetCurvature (pure_pursuit.cpp
lines 219-227): some waypoint lies strictly beyond the minimum
lookahead distance. -/
def isValidCurve (pp : PurePursuitState) : Bool :=
  pp.current_waypoints.any fun el =>
    decide (getPlaneDistance el pp.current_pose.position > pp.minimum_lookahead_distance)

/-- Outcome of one canGetCurvature call: success with the value written
to *output_kappa, failure (return false, *output_kappa untouched), or
an escaping throw. -/
inductive TickResult where
  | success (kappa : ℝ)
  | failure
  | panic

/-- PurePursuit::canGetCurvature (pure_pursuit.cpp lines 209-254) as a
state transformer: the returned state carries the updated
next_waypoint_number_ and next_target_position_ fields. -/
def canGetCurvature (pp : PurePursuitState) : TickResult × PurePursuitState :=
  let idx := getNextWaypoint pp
  let pp1 := { pp with next_waypoint_number := idx }
  if idx = -1 then (.failure, pp1)
  else if isValidCurve pp1 = false then (.failure, pp1)
  else if pp1.is_linear_interpolation = false ∨ idx = 0 ∨
          idx = (pp1.current_waypoints.length : ℤ) - 1 then
    match listAt pp1.current_waypoints idx with
    | none => (.panic, pp1)
    | some tgt =>
      let pp2 := { pp1 with next_target_position := tgt }
      (.success (calcCurvature pp2 tgt), pp2)
  else
    match interpolateNextTarget pp1 idx with
    | .panic => (.panic, pp1)
    | .fail => (.failure, pp1)
    | .ok tgt =>
      let pp2 := { pp1 with next_target_position := tgt }
      (.success (calcCurvature pp2 tgt), pp2)

/-! ### Concrete states used by the witnesses -/

/-- Pose at the origin with yaw zero, facing the +x axis. -/
def poseO : Pose := ⟨⟨0, 0, 0⟩, 0⟩

/-- Witness state for the abeam targets of spec §8.3. -/
def ppAbeam : PurePursuitState :=
  ⟨[], poseO, 1, 1, false, 1, 0, ⟨0, 0, 0⟩⟩

/-- Witness state with an empty path. -/
def ppEmpty : PurePursuitState :=
  ⟨[], poseO, 1, 1, true, 1, 0, ⟨0, 0, 0⟩⟩

/-- Witness state: one waypoint at the origin, minimum lookahead 1. -/
def ppNear : PurePursuitState :=
  ⟨[⟨0, 0, 0⟩], poseO, 1, 1, true, 1, 0, ⟨0, 0, 0⟩⟩

/-- Witness state: two waypoints on the x axis, lookahead 1. -/
def ppTwo : PurePursuitState :=
  ⟨[⟨0, 0, 0⟩, ⟨10, 0, 0⟩], poseO, 1, 1, true, 1, 0, ⟨0, 0, 0⟩⟩

/-- Scenario state of spec §8.8: four waypoints, lookahead 7. -/
def ppRun : PurePursuitState :=
  ⟨[⟨0, 0, 0⟩, ⟨5, 0, 0⟩, ⟨10, 0, 0⟩, ⟨15, 5, 0⟩], poseO, 7, 1, true, 1, 0, ⟨0, 0, 0⟩⟩

/-- Counterexample state: two waypoints close to the vehicle, lookahead 5. -/
def ppShort : PurePursuitState :=
  ⟨[⟨0, 0, 0⟩, ⟨1, 0, 0⟩], poseO, 5, 1, true, 1, 0, ⟨0, 0, 0⟩⟩

/-! ### Basic lemmas about the geometry helpers -/

theorem getLinearEquation_inv (p1 p2 : Point) (a b c : ℝ)
    (hL : getLinearEquation p1 p2 = some (a, b, c)) :
    ¬(p1.x = p2.x ∧ p1.y = p2.y) ∧
      a = p2.y - p1.y ∧ b = p1.x - p2.x ∧ c = -a * p1.x - b * p1.y := by
  unfold getLinearEquation at hL
  by_cases hc : p1.x = p2.x ∧ p1.y = p2.y
  · rw [if_pos hc] at hL
    exact absurd hL (by simp)
  · rw [if_neg hc] at hL
    simp only [Option.some.injEq, Prod.mk.injEq] at hL
    obtain ⟨ha, hb, hcc⟩ := hL
    refine ⟨hc, ha.symm, hb.symm, ?_⟩
    rw [← ha, ← hb]
    exact hcc.symm

theorem normalizeVec_norm (v : ℝ × ℝ) (hv : v.1 ^ 2 + v.2 ^ 2 ≠ 0) :
    (normalizeVec v).1 ^ 2 + (normalizeVec v).2 ^ 2 = 1 := by
  have h0 : 0 < v.1 ^ 2 + v.2 ^ 2 := lt_of_le_of_ne (by positivity) (Ne.symm hv)
  unfold normalizeVec
  dsimp only
  rw [div_pow, div_pow, div_add_div_same, Real.sq_sqrt h0.le, div_self hv]

theorem rotateUnitVector_90 (v : ℝ × ℝ) : rotateUnitVector v 90 = (-v.2, v.1) := by
  unfold rotateUnitVector
  have h : (90 : ℝ) * Real.pi / 180 = Real.pi / 2 := by ring
  rw [h, Real.cos_pi_div_two, Real.sin_pi_div_two]
  norm_num

theorem rotateUnitVector_neg90 (v : ℝ × ℝ) : rotateUnitVector v (-90) = (v.2, -v.1) := by
  unfold rotateUnitVector
  have h : (-90 : ℝ) * Real.pi / 180 = -(Real.pi / 2) := by ring
  rw [h, Real.cos_neg, Real.sin_neg, Real.cos_pi_div_two, Real.sin_pi_div_two]
  norm_num

theorem getDistanceBetweenLineAndPoint_nonneg (p : Point) (a b c : ℝ) :
    0 ≤ getDistanceBetweenLineAndPoint p a b c :=
  div_nonneg (abs_nonneg _) (Real.sqrt_nonneg _)

theorem listAt_isSome (l : List Point) (i : ℤ) (h0 : 0 ≤ i)
    (hlt : i < (l.length : ℤ)) : ∃ p, listAt l i = some p :=
  ⟨_, dif_pos ⟨h0, hlt⟩⟩

/-! ### Claim C2: calcCurvature -/

/-- C2: calcCurvature returns 2*y divided by x*x in the vehicle local
frame whenever the denominator x*x is nonzero under an exact equality
test; when x = 0 it returns +kappa_min for y > 0 and -kappa_min
otherwise, y = 0 included; it always returns a value. -/
theorem calcCurvature_spec (pp : PurePursuitState) (target : Point) :
    ((calcRelativeCoordinate target pp.current_pose).x *
        (calcRelativeCoordinate target pp.current_pose).x ≠ 0 →
      calcCurvature pp target =
        2 * (calcRelativeCoordinate target pp.current_pose).y /
          ((calcRelativeCoordinate target pp.current_pose).x *
            (calcRelativeCoordinate target pp.current_pose).x)) ∧
    ((calcRelativeCoordinate target pp.current_pose).x = 0 →
      (0 < (calcRelativeCoordinate target pp.current_pose).y →
        calcCurvature pp target = pp.kappa_min) ∧
      ((calcRelativeCoordinate target pp.current_pose).y ≤ 0 →
        calcCurvature pp target = -pp.kappa_min)) := by
  refine ⟨fun hx => ?_, fun hx => ⟨fun hy => ?_, fun hy => ?_⟩⟩
  · simp only [calcCurvature]
    rw [if_pos hx]
  · simp only [calcCurvature]
    rw [if_neg (fun h => h (by rw [hx]; ring)), if_pos (by linarith)]
  · simp only [calcCurvature]
    rw [if_neg (fun h => h (by rw [hx]; ring)), if_neg (by linarith)]

/-- Witness for C2 at the abeam targets of spec §8.3. -/
theorem calcCurvature_spec_witness :
    (calcRelativeCoordinate ⟨0, 5, 0⟩ ppAbeam.current_pose).x = 0 ∧
    0 < (calcRelativeCoordinate ⟨0, 5, 0⟩ ppAbeam.current_pose).y ∧
    calcCurvature ppAbeam ⟨0, 5, 0⟩ = ppAbeam.kappa_min ∧
    (calcRelativeCoordinate ⟨0, -5, 0⟩ ppAbeam.current_pose).x = 0 ∧
    (calcRelativeCoordinate ⟨0, -5, 0⟩ ppAbeam.current_pose).y ≤ 0 ∧
    calcCurvature ppAbeam ⟨0, -5, 0⟩ = -ppAbeam.kappa_min := by
  have hx1 : (calcRelativeCoordinate ⟨0, 5, 0⟩ ppAbeam.current_pose).x = 0 := by
    simp [calcRelativeCoordinate, ppAbeam, poseO]
  have hy1 : 0 < (calcRelativeCoordinate ⟨0, 5, 0⟩ ppAbeam.current_pose).y := by
    simp [calcRelativeCoordinate, ppAbeam, poseO]
  have hx2 : (calcRelativeCoordinate ⟨0, -5, 0⟩ ppAbeam.current_pose).x = 0 := by
    simp [calcRelativeCoordinate, ppAbeam, poseO]
  have hy2 : (calcRelativeCoordinate ⟨0, -5, 0⟩ ppAbeam.current_pose).y ≤ 0 := by
    simp [calcRelativeCoordinate, ppAbeam, poseO]
  exact ⟨hx1, hy1, ((calcCurvature_spec ppAbeam ⟨0, 5, 0⟩).2 hx1).1 hy1,
    hx2, hy2, ((calcCurvature_spec ppAbeam ⟨0, -5, 0⟩).2 hx2).2 hy2⟩

/-! ### Claim C8: empty path -/

/-- C8: an empty path makes canGetCurvature fail for every pose and
configuration, producing no curvature value; the stored next waypoint
index is -1. -/
theorem canGetCurvature_empty (pp : PurePursuitState)
    (h : pp.current_waypoints = []) :
    (canGetCurvature pp).1 = TickResult.failure ∧
    (canGetCurvature pp).2.next_waypoint_number = -1 := by
  have hidx : getNextWaypoint pp = -1 := by
    unfold getNextWaypoint
    rw [if_pos (by rw [h]; rfl)]
  simp [canGetCurvature, hidx]

/-- Witness for C8 on the concrete empty-path state. -/
theorem canGetCurvature_empty_witness :
    ppEmpty.current_waypoints = [] ∧
    (canGetCurvature ppEmpty).1 = TickResult.failure ∧
    (canGetCurvature ppEmpty).2.next_waypoint_number = -1 :=
  ⟨rfl, (canGetCurvature_empty ppEmpty rfl).1, (canGetCurvature_empty ppEmpty rfl).2⟩

/-! ### Claim C3: getNextWaypoint -/

theorem nextWaypointFrom_spec (pose : Pose) (ld : ℝ) (sz : ℕ) :
    ∀ (l : List Point) (i : ℕ), l ≠ [] → i + l.length = sz →
      ∃ k : ℕ, ∃ hk : k < l.length,
        nextWaypointFrom pose ld sz i l = ((i + k : ℕ) : ℤ) ∧
        (i + k = sz - 1 ∨
          getPlaneDistance (l.get ⟨k, hk⟩) pose.position > ld) ∧
        ∀ j : ℕ, ∀ hj : j < l.length, j < k →
          ¬(i + j = sz - 1 ∨
            getPlaneDistance (l.get ⟨j, hj⟩) pose.position > ld) := by
  intro l
  induction l with
  | nil => intro i hne _; exact absurd rfl hne
  | cons p rest ih =>
    intro i _ hsz
    simp only [List.length_cons] at hsz
    by_cases hlast : i = sz - 1
    · refine ⟨0, Nat.succ_pos _, ?_, Or.inl (by omega),
        fun j hj hj0 => absurd hj0 (by omega)⟩
      simp [nextWaypointFrom, hlast]
    · by_cases hdist : getPlaneDistance p pose.position > ld
      · refine ⟨0, Nat.succ_pos _, ?_, Or.inr hdist,
          fun j hj hj0 => absurd hj0 (by omega)⟩
        simp [nextWaypointFrom, hlast, hdist]
      · have hrest : rest ≠ [] := by
          rintro rfl
          simp only [List.length_nil] at hsz
          omega
        obtain ⟨k, hk, hres, hcond, hmin⟩ := ih (i + 1) hrest (by omega)
        refine ⟨k + 1, by simpa using Nat.succ_lt_succ hk, ?_, ?_, ?_⟩
        · have hstep : nextWaypointFrom pose ld sz i (p :: rest) =
              nextWaypointFrom pose ld sz (i + 1) rest := by
            simp [nextWaypointFrom, hlast, hdist]
          rw [hstep, hres]
          congr 1
          omega
        · rcases hcond with h | h
          · exact Or.inl (by omega)
          · exact Or.inr h
        · intro j hj hjk
          cases j with
          | zero =>
            push_neg
            exact ⟨by omega, by simpa using hdist⟩
          | succ j2 =>
            have hj2 : j2 < rest.length := by
              simp only [List.length_cons] at hj
              omega
            have hres2 := hmin j2 hj2 (by omega)
            push_neg at hres2 ⊢
            exact ⟨by omega, hres2.2⟩

/-- The scan of a non-empty path yields an index within bounds. -/
theorem getNextWaypoint_bounds (pp : PurePursuitState)
    (hne : pp.current_waypoints ≠ []) :
    0 ≤ getNextWaypoint pp ∧
      getNextWaypoint pp < (pp.current_waypoints.length : ℤ) := by
  obtain ⟨k, hk, hres, -, -⟩ :=
    nextWaypointFrom_spec pp.current_pose pp.lookahead_distance
      pp.current_waypoints.length pp.current_waypoints 0 hne (by omega)
  have hg : getNextWaypoint pp = (k : ℤ) := by
    unfold getNextWaypoint
    rw [if_neg (fun h0 => hne (List.length_eq_zero.mp h0))]
    simpa using hres
  rw [hg]
  exact ⟨Int.ofNat_nonneg k, by exact_mod_cast hk⟩

/-- C3: getNextWaypoint returns -1 exactly on the empty path; on a
non-empty path it returns the smallest index whose waypoint is the last
one or lies strictly beyond the lookahead distance, hence always a
valid index and never -1. -/
theorem getNextWaypoint_spec (pp : PurePursuitState) :
    (pp.current_waypoints = [] → getNextWaypoint pp = -1) ∧
    (pp.current_waypoints ≠ [] →
      ∃ k : ℕ, ∃ hk : k < pp.current_waypoints.length,
        getNextWaypoint pp = (k : ℤ) ∧
        (k = pp.current_waypoints.length - 1 ∨
          getPlaneDistance (pp.current_waypoints.get ⟨k, hk⟩)
              pp.current_pose.position > pp.lookahead_distance) ∧
        ∀ j : ℕ, ∀ hj : j < pp.current_waypoints.length, j < k →
          ¬(j = pp.current_waypoints.length - 1 ∨
            getPlaneDistance (pp.current_waypoints.get ⟨j, hj⟩)
                pp.current_pose.position > pp.lookahead_distance)) := by
  constructor
  · intro h
    unfold getNextWaypoint
    rw [if_pos (by rw [h]; rfl)]
  · intro hne
    obtain ⟨k, hk, hres, hcond, hmin⟩ :=
      nextWaypointFrom_spec pp.current_pose pp.lookahead_distance
        pp.current_waypoints.length pp.current_waypoints 0 hne (by omega)
    refine ⟨k, hk, ?_, ?_, ?_⟩
    · unfold getNextWaypoint
      rw [if_neg (fun h0 => hne (List.length_eq_zero.mp h0))]
      simpa using hres
    · simpa using hcond
    · intro j hj hjk
      simpa using hmin j hj hjk

/-- Witness for C3 on a one-point path. -/
theorem getNextWaypoint_spec_witness :
    ppNear.current_waypoints ≠ [] ∧
    (∃ k : ℕ, ∃ hk : k < ppNear.current_waypoints.length,
      getNextWaypoint ppNear = (k : ℤ) ∧
      (k = ppNear.current_waypoints.length - 1 ∨
        getPlaneDistance (ppNear.current_waypoints.get ⟨k, hk⟩)
            ppNear.current_pose.position > ppNear.lookahead_distance) ∧
      ∀ j : ℕ, ∀ hj : j < ppNear.current_waypoints.length, j < k →
        ¬(j = ppNear.current_waypoints.length - 1 ∨
          getPlaneDistance (ppNear.current_waypoints.get ⟨j, hj⟩)
              ppNear.current_pose.position > ppNear.lookahead_distance)) :=
  ⟨by simp [ppNear], (getNextWaypoint_spec ppNear).2 (by simp [ppNear])⟩

/-! ### Claim C10: no writes on failure -/

/-- Changing only the bookkeeping fields of the state does not change
the computed curvature, which reads the pose and kappa_min. -/
theorem calcCurvature_congr (pp : PurePursuitState) (idx : ℤ) (q tgt : Point) :
    calcCurvature
        { pp with next_waypoint_number := idx, next_target_position := q } tgt =
      calcCurvature pp tgt := rfl

/-- C10: when canGetCurvature fails, the stored next_target_position_
is left unchanged; no curvature value is produced (the failure outcome
carries none), so *output_kappa is written only on success paths. -/
theorem canGetCurvature_failure_no_write (pp : PurePursuitState)
    (h : (canGetCurvature pp).1 = TickResult.failure) :
    (canGetCurvature pp).2.next_target_position = pp.next_target_position := by
  by_cases h1 : getNextWaypoint pp = -1
  · simp [canGetCurvature, h1]
  · by_cases h2 : isValidCurve { pp with next_waypoint_number := getNextWaypoint pp } = false
    · simp [canGetCurvature, h1, h2]
    · by_cases h3 : pp.is_linear_interpolation = false ∨ getNextWaypoint pp = 0 ∨
          getNextWaypoint pp = (pp.current_waypoints.length : ℤ) - 1
      · cases hL : listAt pp.current_waypoints (getNextWaypoint pp) with
        | none => simp [canGetCurvature, h1, h2, h3, hL]
        | some tgt =>
          exfalso
          simp [canGetCurvature, h1, h2, h3, hL] at h
      · cases hI : interpolateNextTarget
            { pp with next_waypoint_number := getNextWaypoint pp }
            (getNextWaypoint pp) with
        | ok tgt =>
          exfalso
          simp [canGetCurvature, h1, h2, h3, hI] at h
        | fail => simp [canGetCurvature, h1, h2, h3, hI]
        | panic => simp [canGetCurvature, h1, h2, h3, hI]

/-- Witness for C10 on the concrete empty-path state. -/
theorem canGetCurvature_failure_no_write_witness :
    (canGetCurvature ppEmpty).1 = TickResult.failure ∧
    (canGetCurvature ppEmpty).2.next_target_position = ppEmpty.next_target_position :=
  ⟨rfl, canGetCurvature_failure_no_write ppEmpty rfl⟩

/-! ### Claim C6: minimum-lookahead gating -/

/-- C6: with a non-empty path whose waypoints all lie within the
minimum lookahead distance, canGetCurvature fails although the search
selected an index; and the validity check succeeds exactly when some
waypoint lies strictly beyond the minimum lookahead distance. -/
theorem canGetCurvature_min_gating (pp : PurePursuitState)
    (hne : pp.current_waypoints ≠ [])
    (hall : ∀ w ∈ pp.current_waypoints,
      getPlaneDistance w pp.current_pose.position ≤
        pp.minimum_lookahead_distance) :
    getNextWaypoint pp ≠ -1 ∧ (canGetCurvature pp).1 = TickResult.failure ∧
    ∀ pq : PurePursuitState, (isValidCurve pq = true ↔
      ∃ w ∈ pq.current_waypoints,
        getPlaneDistance w pq.current_pose.position >
          pq.minimum_lookahead_distance) := by
  have hb := getNextWaypoint_bounds pp hne
  have h1 : getNextWaypoint pp ≠ -1 := by omega
  have hv : isValidCurve { pp with next_waypoint_number := getNextWaypoint pp } = false := by
    simp only [isValidCurve, List.any_eq_false, decide_eq_true_eq]
    intro w hw
    exact not_lt.mpr (hall w hw)
  refine ⟨h1, by simp [canGetCurvature, h1, hv], fun pq => ?_⟩
  simp [isValidCurve, List.any_eq_true, decide_eq_true_eq]

/-- Witness for C6 on a one-point path inside the minimum radius. -/
theorem canGetCurvature_min_gating_witness :
    ppNear.current_waypoints ≠ [] ∧
    (∀ w ∈ ppNear.current_waypoints,
      getPlaneDistance w ppNear.current_pose.position ≤
        ppNear.minimum_lookahead_distance) ∧
    getNextWaypoint ppNear ≠ -1 ∧
    (canGetCurvature ppNear).1 = TickResult.failure := by
  have hne : ppNear.current_waypoints ≠ [] := by simp [ppNear]
  have hall : ∀ w ∈ ppNear.current_waypoints,
      getPlaneDistance w ppNear.current_pose.position ≤
        ppNear.minimum_lookahead_distance := by
    intro w hw
    simp only [ppNear, List.mem_singleton] at hw
    subst hw
    simp [getPlaneDistance, ppNear, poseO]
  exact ⟨hne, hall, (canGetCurvature_min_gating ppNear hne hall).1,
    (canGetCurvature_min_gating ppNear hne hall).2.1⟩

/-! ### Claim C7: raw-target branch -/

/-- C7: when the search selects an index, the validity check passes,
and interpolation is disabled or the index is the first or the last
one, canGetCurvature succeeds using the raw waypoint at that index as
the target, with the curvature computed from that waypoint. -/
theorem canGetCurvature_raw_target (pp : PurePursuitState)
    (hne : pp.current_waypoints ≠ [])
    (hvalid : isValidCurve { pp with next_waypoint_number := getNextWaypoint pp } = true)
    (hraw : pp.is_linear_interpolation = false ∨ getNextWaypoint pp = 0 ∨
      getNextWaypoint pp = (pp.current_waypoints.length : ℤ) - 1) :
    ∃ tgt : Point,
      listAt pp.current_waypoints (getNextWaypoint pp) = some tgt ∧
      canGetCurvature pp =
        (TickResult.success (calcCurvature pp tgt),
          { pp with next_waypoint_number := getNextWaypoint pp,
                    next_target_position := tgt }) := by
  have hb := getNextWaypoint_bounds pp hne
  have h1 : getNextWaypoint pp ≠ -1 := by omega
  obtain ⟨tgt, htgt⟩ := listAt_isSome _ _ hb.1 hb.2
  refine ⟨tgt, htgt, ?_⟩
  simp [canGetCurvature, h1, hvalid, hraw, htgt, calcCurvature_congr]

/-! ### Stage lemmas for interpolateNextTarget -/

theorem interpCore_line_none (pose : Pose) (r : ℝ) (start end_ : Point)
    (hL : getLinearEquation start end_ = none) :
    interpCore pose r start end_ = InterpResult.fail := by
  unfold interpCore
  rw [hL]

theorem interpCore_line_some (pose : Pose) (r : ℝ) (start end_ : Point)
    (a b c : ℝ) (hL : getLinearEquation start end_ = some (a, b, c)) :
    interpCore pose r start end_ = interpAfterLine pose r start end_ a b c := by
  unfold interpCore
  rw [hL]

theorem interpAfterLine_gt (pose : Pose) (r : ℝ) (start end_ : Point)
    (a b c : ℝ)
    (hd : getDistanceBetweenLineAndPoint pose.position a b c > r) :
    interpAfterLine pose r start end_ a b c = InterpResult.fail := by
  simp [interpAfterLine, hd]

theorem interpAfterLine_sel_none (pose : Pose) (r : ℝ) (start end_ : Point)
    (a b c : ℝ)
    (hd : ¬ getDistanceBetweenLineAndPoint pose.position a b c > r)
    (hsel : selectFoot a b c
        (footOf pose (getDistanceBetweenLineAndPoint pose.position a b c)
          (rotateUnitVector (normalizeVec (end_.x - start.x, end_.y - start.y)) 90))
        (footOf pose (getDistanceBetweenLineAndPoint pose.position a b c)
          (rotateUnitVector (normalizeVec (end_.x - start.x, end_.y - start.y)) (-90)))
      = none) :
    interpAfterLine pose r start end_ a b c = InterpResult.fail := by
  simp [interpAfterLine, hd, hsel]

theorem interpAfterLine_sel_some (pose : Pose) (r : ℝ) (start end_ : Point)
    (a b c : ℝ) (h : Point)
    (hd : ¬ getDistanceBetweenLineAndPoint pose.position a b c > r)
    (hsel : selectFoot a b c
        (footOf pose (getDistanceBetweenLineAndPoint pose.position a b c)
          (rotateUnitVector (normalizeVec (end_.x - start.x, end_.y - start.y)) 90))
        (footOf pose (getDistanceBetweenLineAndPoint pose.position a b c)
          (rotateUnitVector (normalizeVec (end_.x - start.x, end_.y - start.y)) (-90)))
      = some h) :
    interpAfterLine pose r start end_ a b c =
      interpTangentOrChord pose r
        (getDistanceBetweenLineAndPoint pose.position a b c)
        (normalizeVec (end_.x - start.x, end_.y - start.y)) h start end_ := by
  simp [interpAfterLine, hd, hsel]

theorem interpTangentOrChord_tangent (pose : Pose) (r d : ℝ) (u : ℝ × ℝ)
    (h : Point) (start end_ : Point) (hd : d = r) :
    interpTangentOrChord pose r d u h start end_ = InterpResult.ok h := by
  simp [interpTangentOrChord, hd]

theorem interpTangentOrChord_chord1 (pose : Pose) (r d : ℝ) (u : ℝ × ℝ)
    (h : Point) (start end_ : Point) (hd : d ≠ r)
    (h1 : getPlaneDistance
        ⟨h.x + Real.sqrt (r ^ 2 - d ^ 2) * u.1,
         h.y + Real.sqrt (r ^ 2 - d ^ 2) * u.2, pose.position.z⟩ end_ <
      getPlaneDistance end_ start) :
    interpTangentOrChord pose r d u h start end_ =
      InterpResult.ok ⟨h.x + Real.sqrt (r ^ 2 - d ^ 2) * u.1,
        h.y + Real.sqrt (r ^ 2 - d ^ 2) * u.2, pose.position.z⟩ := by
  simp [interpTangentOrChord, hd, h1]

theorem interpTangentOrChord_chord2 (pose : Pose) (r d : ℝ) (u : ℝ × ℝ)
    (h : Point) (start end_ : Point) (hd : d ≠ r)
    (h1 : ¬ getPlaneDistance
        ⟨h.x + Real.sqrt (r ^ 2 - d ^ 2) * u.1,
         h.y + Real.sqrt (r ^ 2 - d ^ 2) * u.2, pose.position.z⟩ end_ <
      getPlaneDistance end_ start)
    (h2 : getPlaneDistance
        ⟨h.x - Real.sqrt (r ^ 2 - d ^ 2) * u.1,
         h.y - Real.sqrt (r ^ 2 - d ^ 2) * u.2, pose.position.z⟩ end_ <
      getPlaneDistance end_ start) :
    interpTangentOrChord pose r d u h start end_ =
      InterpResult.ok ⟨h.x - Real.sqrt (r ^ 2 - d ^ 2) * u.1,
        h.y - Real.sqrt (r ^ 2 - d ^ 2) * u.2, pose.position.z⟩ := by
  simp [interpTangentOrChord, hd, h1, h2]

theorem interpTangentOrChord_fail (pose : Pose) (r d : ℝ) (u : ℝ × ℝ)
    (h : Point) (start end_ : Point) (hd : d ≠ r)
    (h1 : ¬ getPlaneDistance
        ⟨h.x + Real.sqrt (r ^ 2 - d ^ 2) * u.1,
         h.y + Real.sqrt (r ^ 2 - d ^ 2) * u.2, pose.position.z⟩ end_ <
      getPlaneDistance end_ start)
    (h2 : ¬ getPlaneDistance
        ⟨h.x - Real.sqrt (r ^ 2 - d ^ 2) * u.1,
         h.y - Real.sqrt (r ^ 2 - d ^ 2) * u.2, pose.position.z⟩ end_ <
      getPlaneDistance end_ start) :
    interpTangentOrChord pose r d u h start end_ = InterpResult.fail := by
  simp [interpTangentOrChord, hd, h1, h2]

theorem selectFoot_inv (a b c : ℝ) (h1 h2 h : Point)
    (hs : selectFoot a b c h1 h2 = some h) :
    (h = h1 ∨ h = h2) ∧ |a * h.x + b * h.y + c| < ERROR := by
  unfold selectFoot at hs
  by_cases c1 : |a * h1.x + b * h1.y + c| < ERROR
  · rw [if_pos c1] at hs
    obtain rfl : h1 = h := by simpa using hs
    exact ⟨Or.inl rfl, c1⟩
  · rw [if_neg c1] at hs
    by_cases c2 : |a * h2.x + b * h2.y + c| < ERROR
    · rw [if_pos c2] at hs
      obtain rfl : h2 = h := by simpa using hs
      exact ⟨Or.inr rfl, c2⟩
    · rw [if_neg c2] at hs
      exact absurd hs (by simp)

theorem interpTangentOrChord_ne_panic (pose : Pose) (r d : ℝ) (u : ℝ × ℝ)
    (h : Point) (start end_ : Point) :
    interpTangentOrChord pose r d u h start end_ ≠ InterpResult.panic := by
  by_cases hd : d = r
  · simp [interpTangentOrChord, hd]
  · by_cases h1 : getPlaneDistance
        ⟨h.x + Real.sqrt (r ^ 2 - d ^ 2) * u.1,
         h.y + Real.sqrt (r ^ 2 - d ^ 2) * u.2, pose.position.z⟩ end_ <
      getPlaneDistance end_ start
    · simp [interpTangentOrChord, hd, h1]
    · by_cases h2 : getPlaneDistance
          ⟨h.x - Real.sqrt (r ^ 2 - d ^ 2) * u.1,
           h.y - Real.sqrt (r ^ 2 - d ^ 2) * u.2, pose.position.z⟩ end_ <
        getPlaneDistance end_ start
      · simp [interpTangentOrChord, hd, h1, h2]
      · simp [interpTangentOrChord, hd, h1, h2]

theorem interpAfterLine_ne_panic (pose : Pose) (r : ℝ) (start end_ : Point)
    (a b c : ℝ) :
    interpAfterLine pose r start end_ a b c ≠ InterpResult.panic := by
  by_cases hd : getDistanceBetweenLineAndPoint pose.position a b c > r
  · simp [interpAfterLine, hd]
  · cases hsel : selectFoot a b c
        (footOf pose (getDistanceBetweenLineAndPoint pose.position a b c)
          (rotateUnitVector (normalizeVec (end_.x - start.x, end_.y - start.y)) 90))
        (footOf pose (getDistanceBetweenLineAndPoint pose.position a b c)
          (rotateUnitVector (normalizeVec (end_.x - start.x, end_.y - start.y)) (-90))) with
    | none => simp [interpAfterLine, hd, hsel]
    | some h =>
      rw [interpAfterLine_sel_some pose r start end_ a b c h hd hsel]
      exact interpTangentOrChord_ne_panic _ _ _ _ _ _ _

theorem interpCore_ne_panic (pose : Pose) (r : ℝ) (start end_ : Point) :
    interpCore pose r start end_ ≠ InterpResult.panic := by
  cases hL : getLinearEquation start end_ with
  | none => simp [interpCore_line_none pose r start end_ hL]
  | some abc =>
    obtain ⟨a, b, c⟩ := abc
    rw [interpCore_line_some pose r start end_ a b c hL]
    exact interpAfterLine_ne_panic pose r start end_ a b c

/-! ### Claim C5: bounds and panic behaviour of interpolateNextTarget -/

/-- C5 counterexample: on a two-point path, waypointIndex 0 is not the
last index, so the code reaches the at(waypointIndex - 1) access and
the out_of_range throw escapes the call. -/
theorem interpolateNextTarget_panic_at_zero :
    interpolateNextTarget ppShort 0 = InterpResult.panic := rfl

/-- C5 amended: for every waypointIndex between 1 and N-1, and for
waypointIndex 0 on a one-point path, interpolateNextTarget performs
only in-bounds accesses and returns a point or a structured failure; no
exception escapes. -/
theorem interpolateNextTarget_no_panic (pp : PurePursuitState) (idx : ℤ)
    (h1 : 1 ≤ idx ∨ (idx = 0 ∧ pp.current_waypoints.length = 1))
    (h2 : idx ≤ (pp.current_waypoints.length : ℤ) - 1) :
    interpolateNextTarget pp idx ≠ InterpResult.panic := by
  have h0 : 0 ≤ idx := by rcases h1 with h | ⟨h, _⟩ <;> omega
  have hlen : idx < (pp.current_waypoints.length : ℤ) := by omega
  obtain ⟨endp, hend⟩ := listAt_isSome pp.current_waypoints idx h0 hlen
  by_cases hlast : idx = (pp.current_waypoints.length : ℤ) - 1
  · rw [hlast] at hend
    simp [interpolateNextTarget, hlast, hend]
  · have hge1 : 1 ≤ idx := by
      rcases h1 with h | ⟨h, hlen1⟩
      · exact h
      · exact absurd (by omega : idx = (pp.current_waypoints.length : ℤ) - 1) hlast
    obtain ⟨startp, hstart⟩ :=
      listAt_isSome pp.current_waypoints (idx - 1) (by omega) (by omega)
    simp [interpolateNextTarget, hlast, hend, hstart]
    exact interpCore_ne_panic _ _ _ _

/-- Witness for the amended C5 on the two-point path at index 1. -/
theorem interpolateNextTarget_no_panic_witness :
    ((1 : ℤ) ≤ 1 ∨ ((1 : ℤ) = 0 ∧ ppShort.current_waypoints.length = 1)) ∧
    (1 : ℤ) ≤ (ppShort.current_waypoints.length : ℤ) - 1 ∧
    interpolateNextTarget ppShort 1 ≠ InterpResult.panic :=
  ⟨Or.inl le_rfl, by norm_num [ppShort],
    interpolateNextTarget_no_panic ppShort 1 (Or.inl le_rfl)
      (by norm_num [ppShort])⟩

/-! ### Inversion of successful interpolation runs -/

theorem interpCore_ok_inv (pose : Pose) (r : ℝ) (start end_ : Point) (T : Point)
    (hok : interpCore pose r start end_ = InterpResult.ok T) :
    ∃ a b c d s : ℝ, ∃ u : ℝ × ℝ, ∃ h : Point,
      getLinearEquation start end_ = some (a, b, c) ∧
      d = getDistanceBetweenLineAndPoint pose.position a b c ∧
      d ≤ r ∧
      u = normalizeVec (end_.x - start.x, end_.y - start.y) ∧
      s = Real.sqrt (r ^ 2 - d ^ 2) ∧
      (h = footOf pose d (rotateUnitVector u 90) ∨
        h = footOf pose d (rotateUnitVector u (-90))) ∧
      |a * h.x + b * h.y + c| < ERROR ∧
      ((d = r ∧ T = h) ∨
        (d ≠ r ∧ (T = ⟨h.x + s * u.1, h.y + s * u.2, pose.position.z⟩ ∨
                  T = ⟨h.x - s * u.1, h.y - s * u.2, pose.position.z⟩))) := by
  cases hL : getLinearEquation start end_ with
  | none =>
    rw [interpCore_line_none pose r start end_ hL] at hok
    exact absurd hok (by simp)
  | some abc =>
    obtain ⟨a, b, c⟩ := abc
    rw [interpCore_line_some pose r start end_ a b c hL] at hok
    by_cases hgt : getDistanceBetweenLineAndPoint pose.position a b c > r
    · rw [interpAfterLine_gt pose r start end_ a b c hgt] at hok
      exact absurd hok (by simp)
    · cases hsel : selectFoot a b c
          (footOf pose (getDistanceBetweenLineAndPoint pose.position a b c)
            (rotateUnitVector (normalizeVec (end_.x - start.x, end_.y - start.y)) 90))
          (footOf pose (getDistanceBetweenLineAndPoint pose.position a b c)
            (rotateUnitVector (normalizeVec (end_.x - start.x, end_.y - start.y)) (-90))) with
      | none =>
        rw [interpAfterLine_sel_none pose r start end_ a b c hgt hsel] at hok
        exact absurd hok (by simp)
      | some h =>
        rw [interpAfterLine_sel_some pose r start end_ a b c h hgt hsel] at hok
        obtain ⟨hfoot, hres⟩ := selectFoot_inv _ _ _ _ _ _ hsel
        refine ⟨a, b, c, _, _, _, h, rfl, rfl, not_lt.mp hgt, rfl, rfl, hfoot, hres, ?_⟩
        by_cases hdr : getDistanceBetweenLineAndPoint pose.position a b c = r
        · rw [interpTangentOrChord_tangent _ _ _ _ _ _ _ hdr] at hok
          exact Or.inl ⟨hdr, by simpa using hok.symm⟩
        · refine Or.inr ⟨hdr, ?_⟩
          by_cases hc1 : getPlaneDistance
              ⟨h.x + Real.sqrt (r ^ 2 -
                  (getDistanceBetweenLineAndPoint pose.position a b c) ^ 2) *
                  (normalizeVec (end_.x - start.x, end_.y - start.y)).1,
               h.y + Real.sqrt (r ^ 2 -
                  (getDistanceBetweenLineAndPoint pose.position a b c) ^ 2) *
                  (normalizeVec (end_.x - start.x, end_.y - start.y)).2,
               pose.position.z⟩ end_ < getPlaneDistance end_ start
          · rw [interpTangentOrChord_chord1 _ _ _ _ _ _ _ hdr hc1] at hok
            exact Or.inl (by simpa using hok.symm)
          · by_cases hc2 : getPlaneDistance
                ⟨h.x - Real.sqrt (r ^ 2 -
                    (getDistanceBetweenLineAndPoint pose.position a b c) ^ 2) *
                    (normalizeVec (end_.x - start.x, end_.y - start.y)).1,
                 h.y - Real.sqrt (r ^ 2 -
                    (getDistanceBetweenLineAndPoint pose.position a b c) ^ 2) *
                    (normalizeVec (end_.x - start.x, end_.y - start.y)).2,
                 pose.position.z⟩ end_ < getPlaneDistance end_ start
            · rw [interpTangentOrChord_chord2 _ _ _ _ _ _ _ hdr hc1 hc2] at hok
              exact Or.inr (by simpa using hok.symm)
            · rw [interpTangentOrChord_fail _ _ _ _ _ _ _ hdr hc1 hc2] at hok
              exact absurd hok (by simp)

theorem interpolateNextTarget_ok_core (pp : PurePursuitState) (idx : ℤ)
    (T : Point) (hidx : idx ≠ (pp.current_waypoints.length : ℤ) - 1)
    (hok : interpolateNextTarget pp idx = InterpResult.ok T) :
    ∃ start end_ : Point,
      listAt pp.current_waypoints (idx - 1) = some start ∧
      listAt pp.current_waypoints idx = some end_ ∧
      interpCore pp.current_pose pp.lookahead_distance start end_ =
        InterpResult.ok T := by
  cases hend : listAt pp.current_waypoints idx with
  | none => simp [interpolateNextTarget, hidx, hend] at hok
  | some endp =>
    cases hstart : listAt pp.current_waypoints (idx - 1) with
    | none => simp [interpolateNextTarget, hidx, hend, hstart] at hok
    | some startp =>
      simp only [interpolateNextTarget, hidx, hend, hstart] at hok
      rw [if_neg not_false] at hok
      exact ⟨startp, endp, rfl, rfl, hok⟩

/-! ### Geometry of the interpolated target -/

theorem normalizeVec_orth (x y : ℝ) :
    y * (normalizeVec (x, y)).1 + -x * (normalizeVec (x, y)).2 = 0 := by
  unfold normalizeVec
  dsimp only
  rw [← mul_div_assoc, ← mul_div_assoc, div_add_div_same,
    show y * x + -x * y = 0 by ring, zero_div]

theorem interpCore_on_circle (pose : Pose) (r : ℝ) (start end_ : Point)
    (T : Point) (hok : interpCore pose r start end_ = InterpResult.ok T) :
    getPlaneDistance T pose.position = r ∧
    ∃ a b c : ℝ, getLinearEquation start end_ = some (a, b, c) ∧
      |a * T.x + b * T.y + c| < ERROR := by
  obtain ⟨a, b, c, d, s, u, h, hL, hd_def, hdle, hu_def, hs_def, hfoot, hres, hT⟩ :=
    interpCore_ok_inv pose r start end_ T hok
  obtain ⟨hcne, ha, hb, -⟩ := getLinearEquation_inv start end_ a b c hL
  have hd0 : 0 ≤ d := by
    rw [hd_def]
    exact getDistanceBetweenLineAndPoint_nonneg pose.position a b c
  have hr0 : 0 ≤ r := le_trans hd0 hdle
  have hvne : (end_.x - start.x) ^ 2 + (end_.y - start.y) ^ 2 ≠ 0 := by
    intro h0
    have hx2 : (end_.x - start.x) ^ 2 = 0 := by
      nlinarith [sq_nonneg (end_.x - start.x), sq_nonneg (end_.y - start.y)]
    have hy2 : (end_.y - start.y) ^ 2 = 0 := by
      nlinarith [sq_nonneg (end_.x - start.x), sq_nonneg (end_.y - start.y)]
    exact hcne ⟨by have := sq_eq_zero_iff.mp hx2; linarith,
      by have := sq_eq_zero_iff.mp hy2; linarith⟩
  have hu_norm : u.1 ^ 2 + u.2 ^ 2 = 1 := by
    rw [hu_def]
    exact normalizeVec_norm (end_.x - start.x, end_.y - start.y) hvne
  have horth : a * u.1 + b * u.2 = 0 := by
    rw [hu_def, ha, hb]
    linear_combination normalizeVec_orth (end_.x - start.x) (end_.y - start.y)
  obtain ⟨w1, w2, hw_norm, hw_orth, hhx, hhy⟩ :
      ∃ w1 w2 : ℝ, w1 ^ 2 + w2 ^ 2 = 1 ∧ w1 * u.1 + w2 * u.2 = 0 ∧
        h.x = pose.position.x + d * w1 ∧ h.y = pose.position.y + d * w2 := by
    rcases hfoot with rfl | rfl
    · refine ⟨-u.2, u.1, by linear_combination hu_norm, by ring, ?_, ?_⟩
      · simp [rotateUnitVector_90, footOf]
      · simp [rotateUnitVector_90, footOf]
    · refine ⟨u.2, -u.1, by linear_combination hu_norm, by ring, ?_, ?_⟩
      · simp [rotateUnitVector_neg90, footOf]
      · simp [rotateUnitVector_neg90, footOf]
  rcases hT with ⟨hdr, rfl⟩ | ⟨hdr, hT2⟩
  · refine ⟨?_, a, b, c, hL, hres⟩
    unfold getPlaneDistance
    rw [hhx, hhy]
    rw [show (pose.position.x + d * w1 - pose.position.x) ^ 2 +
        (pose.position.y + d * w2 - pose.position.y) ^ 2 = d ^ 2 from by
      linear_combination d ^ 2 * hw_norm]
    rw [Real.sqrt_sq hd0]
    exact hdr
  · have hs2 : s ^ 2 = r ^ 2 - d ^ 2 := by
      rw [hs_def]
      exact Real.sq_sqrt (by nlinarith [hd0, hdle, hr0])
    rcases hT2 with rfl | rfl
    · refine ⟨?_, a, b, c, hL, ?_⟩
      · unfold getPlaneDistance
        dsimp only
        rw [hhx, hhy]
        rw [show (pose.position.x + d * w1 + s * u.1 - pose.position.x) ^ 2 +
            (pose.position.y + d * w2 + s * u.2 - pose.position.y) ^ 2 = r ^ 2 from by
          linear_combination d ^ 2 * hw_norm + s ^ 2 * hu_norm +
            (2 * d * s) * hw_orth + hs2]
        exact Real.sqrt_sq hr0
      · dsimp only
        rw [show a * (h.x + s * u.1) + b * (h.y + s * u.2) + c =
            a * h.x + b * h.y + c from by linear_combination s * horth]
        exact hres
    · refine ⟨?_, a, b, c, hL, ?_⟩
      · unfold getPlaneDistance
        dsimp only
        rw [hhx, hhy]
        rw [show (pose.position.x + d * w1 - s * u.1 - pose.position.x) ^ 2 +
            (pose.position.y + d * w2 - s * u.2 - pose.position.y) ^ 2 = r ^ 2 from by
          linear_combination d ^ 2 * hw_norm + s ^ 2 * hu_norm -
            (2 * d * s) * hw_orth + hs2]
        exact Real.sqrt_sq hr0
      · dsimp only
        rw [show a * (h.x - s * u.1) + b * (h.y - s * u.2) + c =
            a * h.x + b * h.y + c from by linear_combination (-s) * horth]
        exact hres

/-! ### Claim C1: on-circle invariant -/

/-- C1, corrected to exclude the last-index shortcut: every successful
interpolateNextTarget result through the geometric branches lies
exactly on the lookahead circle, hence within tolerance 1e-5, and
satisfies the segment line equation with residual below 1e-5. -/
theorem interpolateNextTarget_on_circle (pp : PurePursuitState) (idx : ℤ)
    (T : Point) (hidx : idx ≠ (pp.current_waypoints.length : ℤ) - 1)
    (hok : interpolateNextTarget pp idx = InterpResult.ok T) :
    getPlaneDistance T pp.current_pose.position = pp.lookahead_distance ∧
    ∃ start end_ : Point, ∃ a b c : ℝ,
      listAt pp.current_waypoints (idx - 1) = some start ∧
      listAt pp.current_waypoints idx = some end_ ∧
      getLinearEquation start end_ = some (a, b, c) ∧
      |a * T.x + b * T.y + c| < ERROR := by
  obtain ⟨startp, endp, hstart, hend, hcore⟩ :=
    interpolateNextTarget_ok_core pp idx T hidx hok
  obtain ⟨hdist, a, b, c, hL, hres⟩ :=
    interpCore_on_circle pp.current_pose pp.lookahead_distance startp endp T hcore
  exact ⟨hdist, startp, endp, a, b, c, hstart, hend, hL, hres⟩

/-- C1 counterexample: at the last index the shortcut returns the raw
final waypoint, which lies at plane distance 1 from the vehicle while
the lookahead distance is 5, so the on-circle property fails for that
successful result. -/
theorem interpolateNextTarget_on_circle_cex :
    interpolateNextTarget ppShort 1 = InterpResult.ok ⟨1, 0, 0⟩ ∧
    ¬ |getPlaneDistance ⟨1, 0, 0⟩ ppShort.current_pose.position -
        ppShort.lookahead_distance| ≤ ERROR := by
  constructor
  · rfl
  · have h1 : getPlaneDistance ⟨1, 0, 0⟩ ppShort.current_pose.position = 1 := by
      simp [getPlaneDistance, ppShort, poseO]
    rw [h1, show (1 : ℝ) - ppShort.lookahead_distance = -4 from by
      norm_num [ppShort]]
    rw [abs_neg, abs_of_nonneg (by norm_num : (0 : ℝ) ≤ 4)]
    norm_num [ERROR]

/-! ### Claim C9: z coordinate of interpolated targets -/

/-- C9: every point returned by interpolateNextTarget through the
tangent or intersection branches (not the last-index shortcut) carries
the z coordinate of the vehicle pose; the waypoint z values are never
interpolated into it. -/
theorem interpolateNextTarget_z (pp : PurePursuitState) (idx : ℤ) (T : Point)
    (hidx : idx ≠ (pp.current_waypoints.length : ℤ) - 1)
    (hok : interpolateNextTarget pp idx = InterpResult.ok T) :
    T.z = pp.current_pose.position.z := by
  obtain ⟨startp, endp, -, -, hcore⟩ :=
    interpolateNextTarget_ok_core pp idx T hidx hok
  obtain ⟨a, b, c, d, s, u, h, -, -, -, -, -, hfoot, -, hT⟩ :=
    interpCore_ok_inv pp.current_pose pp.lookahead_distance startp endp T hcore
  have hz : h.z = pp.current_pose.position.z := by
    rcases hfoot with rfl | rfl <;> rfl
  rcases hT with ⟨-, rfl⟩ | ⟨-, rfl | rfl⟩
  · exact hz
  · rfl
  · rfl

/-! ### Claim C4: tangent and chord branching -/

/-- C4: once the perpendicular foot h is selected, an exact d = r test
returns h itself; otherwise the forward chord candidate is returned
when its plane distance to the segment end is strictly below the
segment length, else the backward candidate under the same strict test,
and the call fails when neither passes. -/
theorem interpCore_branching (pose : Pose) (r : ℝ) (start end_ : Point)
    (a b c d s : ℝ) (u : ℝ × ℝ) (h t1 t2 : Point)
    (hL : getLinearEquation start end_ = some (a, b, c))
    (hd : d = getDistanceBetweenLineAndPoint pose.position a b c)
    (hdr : ¬ d > r)
    (hu : u = normalizeVec (end_.x - start.x, end_.y - start.y))
    (hsel : selectFoot a b c (footOf pose d (rotateUnitVector u 90))
        (footOf pose d (rotateUnitVector u (-90))) = some h)
    (hs : s = Real.sqrt (r ^ 2 - d ^ 2))
    (ht1 : t1 = ⟨h.x + s * u.1, h.y + s * u.2, pose.position.z⟩)
    (ht2 : t2 = ⟨h.x - s * u.1, h.y - s * u.2, pose.position.z⟩) :
    (d = r → interpCore pose r start end_ = InterpResult.ok h) ∧
    (d ≠ r →
      (getPlaneDistance t1 end_ < getPlaneDistance end_ start →
        interpCore pose r start end_ = InterpResult.ok t1) ∧
      (¬ getPlaneDistance t1 end_ < getPlaneDistance end_ start →
        getPlaneDistance t2 end_ < getPlaneDistance end_ start →
        interpCore pose r start end_ = InterpResult.ok t2) ∧
      (¬ getPlaneDistance t1 end_ < getPlaneDistance end_ start →
        ¬ getPlaneDistance t2 end_ < getPlaneDistance end_ start →
        interpCore pose r start end_ = InterpResult.fail)) := by
  subst hd hu hs ht1 ht2
  have hstep : interpCore pose r start end_ =
      interpTangentOrChord pose r
        (getDistanceBetweenLineAndPoint pose.position a b c)
        (normalizeVec (end_.x - start.x, end_.y - start.y)) h start end_ := by
    rw [interpCore_line_some pose r start end_ a b c hL,
      interpAfterLine_sel_some pose r start end_ a b c h hdr hsel]
  rw [hstep]
  exact ⟨fun h2 => interpTangentOrChord_tangent _ _ _ _ _ _ _ h2,
    fun h2 => ⟨fun hc1 => interpTangentOrChord_chord1 _ _ _ _ _ _ _ h2 hc1,
      fun hc1 hc2 => interpTangentOrChord_chord2 _ _ _ _ _ _ _ h2 hc1 hc2,
      fun hc1 hc2 => interpTangentOrChord_fail _ _ _ _ _ _ _ h2 hc1 hc2⟩⟩

/-! ### Concrete evaluation of the spec §8.8 scenario -/

theorem sqrt_eval (x y : ℝ) (hy : 0 ≤ y) (h : y ^ 2 = x) : Real.sqrt x = y := by
  rw [← h]
  exact Real.sqrt_sq hy

theorem runLine : getLinearEquation ⟨5, 0, 0⟩ ⟨10, 0, 0⟩ = some (0, -5, 0) := by
  norm_num [getLinearEquation]

theorem runDist : getDistanceBetweenLineAndPoint poseO.position 0 (-5) 0 = 0 := by
  norm_num [getDistanceBetweenLineAndPoint, poseO]

theorem runUnit :
    normalizeVec ((⟨10, 0, 0⟩ : Point).x - (⟨5, 0, 0⟩ : Point).x,
      (⟨10, 0, 0⟩ : Point).y - (⟨5, 0, 0⟩ : Point).y) = (1, 0) := by
  have h25 : Real.sqrt 25 = 5 := sqrt_eval 25 5 (by norm_num) (by norm_num)
  norm_num [normalizeVec, h25]

theorem runSel : selectFoot 0 (-5) 0
    (footOf poseO 0 (rotateUnitVector ((1 : ℝ), (0 : ℝ)) 90))
    (footOf poseO 0 (rotateUnitVector ((1 : ℝ), (0 : ℝ)) (-90))) =
      some ⟨0, 0, 0⟩ := by
  rw [rotateUnitVector_90, rotateUnitVector_neg90]
  norm_num [selectFoot, footOf, poseO, ERROR]

theorem runS : Real.sqrt ((7 : ℝ) ^ 2 - 0 ^ 2) = 7 := by
  rw [show (7 : ℝ) ^ 2 - 0 ^ 2 = 7 ^ 2 by norm_num]
  exact Real.sqrt_sq (by norm_num)

theorem runDist31 : getPlaneDistance (⟨7, 0, 0⟩ : Point) ⟨10, 0, 0⟩ = 3 := by
  have h9 : Real.sqrt 9 = 3 := sqrt_eval 9 3 (by norm_num) (by norm_num)
  norm_num [getPlaneDistance, h9]

theorem runDist52 : getPlaneDistance (⟨10, 0, 0⟩ : Point) ⟨5, 0, 0⟩ = 5 := by
  have h25 : Real.sqrt 25 = 5 := sqrt_eval 25 5 (by norm_num) (by norm_num)
  norm_num [getPlaneDistance, h25]

theorem interpCoreRun :
    interpCore poseO 7 ⟨5, 0, 0⟩ ⟨10, 0, 0⟩ = InterpResult.ok ⟨7, 0, 0⟩ := by
  have h25 : Real.sqrt 25 = 5 := sqrt_eval 25 5 (by norm_num) (by norm_num)
  have h49 : Real.sqrt 49 = 7 := sqrt_eval 49 7 (by norm_num) (by norm_num)
  have h9 : Real.sqrt 9 = 3 := sqrt_eval 9 3 (by norm_num) (by norm_num)
  norm_num [interpCore, getLinearEquation, interpAfterLine,
    getDistanceBetweenLineAndPoint, normalizeVec, rotateUnitVector_90,
    rotateUnitVector_neg90, footOf, selectFoot, ERROR, interpTangentOrChord,
    getPlaneDistance, poseO, h25, h49, h9]

theorem hidxRun : (2 : ℤ) ≠ (ppRun.current_waypoints.length : ℤ) - 1 := by
  norm_num [ppRun]

theorem interpRunWrapper :
    interpolateNextTarget ppRun 2 = InterpResult.ok ⟨7, 0, 0⟩ := by
  have h2 : listAt ppRun.current_waypoints 2 = some ⟨10, 0, 0⟩ := rfl
  have h1 : listAt ppRun.current_waypoints (2 - 1) = some ⟨5, 0, 0⟩ := rfl
  simp only [interpolateNextTarget]
  rw [if_neg hidxRun]
  simp only [h2, h1]
  show interpCore poseO 7 ⟨5, 0, 0⟩ ⟨10, 0, 0⟩ = InterpResult.ok ⟨7, 0, 0⟩
  exact interpCoreRun

/-- Witness for C4 on the spec §8.8 segment: d = 0 differs from r = 7
and the forward candidate (7,0,0) lies within the segment, so the
forward intersection is returned. -/
theorem interpCore_branching_witness :
    (0 : ℝ) ≠ 7 ∧
    getPlaneDistance ⟨7, 0, 0⟩ (⟨10, 0, 0⟩ : Point) <
      getPlaneDistance ⟨10, 0, 0⟩ (⟨5, 0, 0⟩ : Point) ∧
    interpCore poseO 7 ⟨5, 0, 0⟩ ⟨10, 0, 0⟩ = InterpResult.ok ⟨7, 0, 0⟩ := by
  have hne : (0 : ℝ) ≠ 7 := by norm_num
  have hlt : getPlaneDistance ⟨7, 0, 0⟩ (⟨10, 0, 0⟩ : Point) <
      getPlaneDistance ⟨10, 0, 0⟩ (⟨5, 0, 0⟩ : Point) := by
    rw [runDist31, runDist52]
    norm_num
  have happ := interpCore_branching poseO 7 ⟨5, 0, 0⟩ ⟨10, 0, 0⟩
    0 (-5) 0 0 7 (1, 0) ⟨0, 0, 0⟩ ⟨7, 0, 0⟩ ⟨-7, 0, 0⟩
    runLine runDist.symm (by norm_num) runUnit.symm runSel runS.symm
    (by norm_num [poseO]) (by norm_num [poseO])
  exact ⟨hne, hlt, (happ.2 hne).1 hlt⟩

/-- Witness for C1 on the spec §8.8 scenario at index 2. -/
theorem interpolateNextTarget_on_circle_witness :
    (2 : ℤ) ≠ (ppRun.current_waypoints.length : ℤ) - 1 ∧
    interpolateNextTarget ppRun 2 = InterpResult.ok ⟨7, 0, 0⟩ ∧
    getPlaneDistance ⟨7, 0, 0⟩ ppRun.current_pose.position =
      ppRun.lookahead_distance :=
  ⟨hidxRun, interpRunWrapper,
    (interpolateNextTarget_on_circle ppRun 2 ⟨7, 0, 0⟩ hidxRun interpRunWrapper).1⟩

/-- Witness for C9 on the spec §8.8 scenario at index 2. -/
theorem interpolateNextTarget_z_witness :
    (2 : ℤ) ≠ (ppRun.current_waypoints.length : ℤ) - 1 ∧
    interpolateNextTarget ppRun 2 = InterpResult.ok ⟨7, 0, 0⟩ ∧
    (Point.mk 7 0 0).z = ppRun.current_pose.position.z :=
  ⟨hidxRun, interpRunWrapper,
    interpolateNextTarget_z ppRun 2 ⟨7, 0, 0⟩ hidxRun interpRunWrapper⟩

/-- Witness for C7 on a two-point path whose scan selects the last
index. -/
theorem canGetCurvature_raw_target_witness :
    ppTwo.current_waypoints ≠ [] ∧
    isValidCurve { ppTwo with next_waypoint_number := getNextWaypoint ppTwo } = true ∧
    (ppTwo.is_linear_interpolation = false ∨ getNextWaypoint ppTwo = 0 ∨
      getNextWaypoint ppTwo = (ppTwo.current_waypoints.length : ℤ) - 1) ∧
    ∃ tgt : Point,
      listAt ppTwo.current_waypoints (getNextWaypoint ppTwo) = some tgt ∧
      canGetCurvature ppTwo =
        (TickResult.success (calcCurvature ppTwo tgt),
          { ppTwo with next_waypoint_number := getNextWaypoint ppTwo,
                       next_target_position := tgt }) := by
  have hne : ppTwo.current_waypoints ≠ [] := by simp [ppTwo]
  have hidx : getNextWaypoint ppTwo = 1 := by
    norm_num [getNextWaypoint, nextWaypointFrom, ppTwo, poseO, getPlaneDistance]
  have h100 : Real.sqrt 100 = 10 := sqrt_eval 100 10 (by norm_num) (by norm_num)
  have hvalid : isValidCurve
      { ppTwo with next_waypoint_number := getNextWaypoint ppTwo } = true := by
    norm_num [isValidCurve, ppTwo, poseO, getPlaneDistance, h100]
  have hraw : ppTwo.is_linear_interpolation = false ∨ getNextWaypoint ppTwo = 0 ∨
      getNextWaypoint ppTwo = (ppTwo.current_waypoints.length : ℤ) - 1 := by
    right; right
    rw [hidx]
    norm_num [ppTwo]
  exact ⟨hne, hvalid, hraw, canGetCurvature_raw_target ppTwo hne hvalid hraw⟩

end

end WaypointFollower
